import Mathlib

/-!
Verification of the Sketch-It! turn/round state machine.

The repository contains two structurally similar React app variants:
  * `src/App.tsx`        — HOME / PLAYING(+sub-phases) / GAME_OVER flow with word banks;
  * `src/unnamed/part_000` — the LOBBY-based flow (flat `GamePhase`).
Pure game logic (scoring, turn sequencing, timer tick, hint reveal) is embedded
below as state-passing functions; React's `setGameState(prev => ...)` updaters
become functions `AppState → AppState` and every discrete UI signal becomes an
`Event` of a step function, so that the set of observable states is exactly the
set of states reachable by `step` from an initial state.

Conventions:
  * JS `number` fields that hold integers are modelled as `Int`
    (`timer`, `score`) or `Nat` (indices, round counters).
  * `Math.random()`-driven draws are modelled by oracle parameters `r : Nat`
    on the events; `Math.floor(Math.random()*arr.length)` can produce exactly
    the indices `0 .. arr.length-1`, which `r % arr.length` ranges over.
  * The JS `Set<string>` of selected guesser ids is modelled as a `List String`
    that is only ever extended with ids not already present, so list membership
    coincides with set membership.
  * JS string ids produced by `Math.random().toString(36)` are treated as
    unique per roster (data-model invariant: "id generated once and stable");
    the `addPlayerE` event therefore carries a fresh-id side condition.
-/

namespace SketchIt

def emptyStr : String := ""

inductive Difficulty
  | easy
  | medium
  | hard
  | custom
deriving DecidableEq, Repr

structure Player where
  id : String
  name : String
  score : Int
deriving DecidableEq, Repr

structure Prompt where
  word : String
  category : String
  difficulty : Difficulty
deriving DecidableEq, Repr

structure HistoryEntry where
  playerName : String
  word : String
  wasCorrect : Bool
  winners : List String
deriving DecidableEq, Repr

/-! ## Hint reveal (src/unnamed/part_000, `renderDrawing`, lines 308-350)

The four per-difficulty triggers are the `let`-initialised defaults for easy
(30 / 20 / 10 / -1), overridden for medium and hard.  `custom` difficulty does
not occur in this variant (its `Prompt` type has no `custom` tag); it keeps the
defaults in the model. -/

def lengthTrigger : Difficulty → Int
  | .easy => 30
  | .medium => 45
  | .hard => 60
  | .custom => 30

def letter1Trigger : Difficulty → Int
  | .easy => 20
  | .medium => 35
  | .hard => 45
  | .custom => 20

def letter2Trigger : Difficulty → Int
  | .easy => 10
  | .medium => 15
  | .hard => 30
  | .custom => 10

def letter3Trigger : Difficulty → Int
  | .easy => (-1)
  | .medium => (-1)
  | .hard => 15
  | .custom => (-1)

/-- `isRevealed` for the character at index `i` of `word`
(src/unnamed/part_000 lines 332-335): strict `<` comparisons of the timer
against the three letter triggers. -/
def isRevealed (word : String) (d : Difficulty) (timer : Int) (i : Nat) : Prop :=
  (timer < letter1Trigger d ∧ i = 0) ∨
  (timer < letter2Trigger d ∧ i = word.length / 2) ∨
  (timer < letter3Trigger d ∧ i = word.length - 1)

instance (word : String) (d : Difficulty) (timer : Int) (i : Nat) :
    Decidable (isRevealed word d timer i) := by
  unfold isRevealed; infer_instance

/-- Whether the character at index `i` is actually shown as a letter: space
characters are rendered as blank separators before `isRevealed` is consulted
(src/unnamed/part_000 lines 329-341). -/
def hintShown (word : String) (d : Difficulty) (timer : Int) (i : Nat) : Bool :=
  match word.data.get? i with
  | none => false
  | some c => if c = ' ' then false else decide (isRevealed word d timer i)

/-- `showLengthHint` (src/unnamed/part_000 line 350): non-strict `<=`. -/
def showLengthHint (d : Difficulty) (timer : Int) : Bool :=
  decide (timer ≤ lengthTrigger d)

/-! ## part_000 timer tick and surrender (lines 91-110 and 431)

In the part_000 variant the timer-expiry branch and the "Surrender Turn"
button both move to `POST_TURN` *without* touching `history`, `players`
or anything else. -/

inductive Phase0
  | LOBBY
  | GETTING_PROMPTS
  | PRE_TURN
  | CHOOSE_PROMPT
  | DRAWING
  | CONFIRM_SCORE
  | POST_TURN
  | ROUND_LEADERBOARD
  | GAME_OVER
deriving DecidableEq, Repr

structure State0 where
  players : List Player
  currentPlayerIndex : Nat
  currentPrompt : Option Prompt
  promptChoices : List Prompt
  phase : Phase0
  timer : Int
  rounds : Nat
  maxRounds : Nat
  history : List HistoryEntry
deriving DecidableEq, Repr

/-- One firing of the interval callback of part_000's timer `useEffect`
(lines 93-102): at `timer <= 1` it sets `timer := 0` and the phase to
`POST_TURN`; otherwise it decrements.  Note that, unlike `App.tsx`,
no history entry is appended in the timeout branch. -/
def p0TickUpdate (s : State0) : State0 :=
  if s.timer ≤ 1 then
    { s with timer := 0, phase := .POST_TURN }
  else
    { s with timer := s.timer - 1 }

/-- The "Surrender Turn" button's `onClick`
(src/unnamed/part_000 line 431): only the phase changes. -/
def p0Surrender (s : State0) : State0 :=
  { s with phase := .POST_TURN }

/-! ## The App.tsx variant: data model (src/types.ts) -/

inductive GamePhase
  | HOME
  | PLAYING
  | GAME_OVER
deriving DecidableEq, Repr

inductive PlayingSubPhase
  | GETTING_PROMPTS
  | PRE_TURN
  | CHOOSE_PROMPT
  | DRAWING
  | CONFIRM_SCORE
  | POST_TURN
  | ROUND_LEADERBOARD
deriving DecidableEq, Repr

inductive WordSource
  | ai
  | custom
deriving DecidableEq, Repr

structure WordSet where
  id : String
  name : String
  easy : List String
  medium : List String
  hard : List String
deriving DecidableEq, Repr

structure GameState where
  phase : GamePhase
  subPhase : Option PlayingSubPhase
  players : List Player
  currentPlayerIndex : Nat
  currentPrompt : Option Prompt
  promptChoices : List Prompt
  timer : Int
  rounds : Nat
  maxRounds : Nat
  wordSource : WordSource
  history : List HistoryEntry
deriving DecidableEq, Repr

/-- The full component state of `App.tsx` that the game logic touches:
`gameState` plus the `allPrompts`, `selectedGuesserIds` and
`wordSets`-derived `activeSet` React states. -/
structure AppState where
  game : GameState
  allPrompts : List Prompt
  selectedGuesserIds : List String
  activeSet : WordSet
deriving DecidableEq, Repr

def DEFAULT_TIME : Int := 60

def MAX_ROUNDS : Nat := 5

def SPEED_BONUS_THRESHOLD : Int := 30

/-- `String.prototype.trim()` as used on the entered player name: strips
leading and trailing whitespace.  (Core `String.trim` is extensionally the
same on these inputs but does not reduce inside the kernel, which the
concrete witnesses below need.) -/
def jsTrim (s : String) : String :=
  ⟨((s.data.dropWhile Char.isWhitespace).reverse.dropWhile Char.isWhitespace).reverse⟩

/-- `prev.players[prev.currentPlayerIndex].name` — the JS expression throws on
an out-of-range index; in every reachable state where it is evaluated the
index is valid (invariant below), so a default only pads the unreachable
cases. -/
def nameAt (ps : List Player) (i : Nat) : String :=
  ((ps.get? i).map Player.name).getD emptyStr

def idAt (ps : List Player) (i : Nat) : String :=
  ((ps.get? i).map Player.id).getD emptyStr

/-- `prev.currentPrompt?.word || ''`. -/
def wordOf (cp : Option Prompt) : String :=
  (cp.map Prompt.word).getD emptyStr

/-- `const diffMap = { easy: 1, medium: 2, hard: 3, custom: 2 }`
(src/App.tsx line 227). -/
def diffMap : Difficulty → Int
  | .easy => 1
  | .medium => 2
  | .hard => 3
  | .custom => 2

/-- `diffMap[gameState.currentPrompt?.difficulty || 'easy']`
(src/App.tsx line 228). -/
def basePointsOf (cp : Option Prompt) : Int :=
  diffMap ((cp.map Prompt.difficulty).getD .easy)

/-! ## setupTurn (src/App.tsx lines 144-173) -/

/-- `const rnd = (arr) => arr[Math.floor(Math.random() * arr.length)]`,
with the random draw replaced by the oracle `r`.  On an empty list the JS
expression yields `undefined`; the model then contributes no element. -/
def rndPick (r : Nat) (arr : List Prompt) : List Prompt :=
  match arr.get? (r % arr.length) with
  | some p => [p]
  | none => []

/-- The prompt-choice list computed by `setupTurn`: the random
per-difficulty-bucket branch when `wordSource === 'ai' || pool.length > 3`
(with a `custom` tag filling the easy bucket), otherwise the first three
entries of the pool. -/
def setupChoices (ws : WordSource) (pool : List Prompt) (r1 r2 r3 : Nat) :
    List Prompt :=
  if ws = .ai ∨ 3 < pool.length then
    let easy := pool.filter fun p => p.difficulty = .easy ∨ p.difficulty = .custom
    let med := pool.filter fun p => p.difficulty = .medium
    let hard := pool.filter fun p => p.difficulty = .hard
    rndPick r1 (if easy.length ≠ 0 then easy else pool) ++
      rndPick r2 (if med.length ≠ 0 then med else pool) ++
      rndPick r3 (if hard.length ≠ 0 then hard else pool)
  else
    pool.take 3

/-- `setupTurn(playerIdx, roundNum, pool)`: resets the turn context and enters
`PRE_TURN`. -/
def setupTurn (s : AppState) (playerIdx roundNum : Nat) (pool : List Prompt)
    (r1 r2 r3 : Nat) : AppState :=
  { s with game :=
    { s.game with
      phase := .PLAYING
      subPhase := some .PRE_TURN
      currentPlayerIndex := playerIdx
      currentPrompt := none
      promptChoices := setupChoices s.game.wordSource pool r1 r2 r3
      timer := DEFAULT_TIME
      rounds := roundNum } }

/-! ## startMatch (src/App.tsx lines 119-142)

`fetched` models the resolution of the awaited `generatePrompts(60)` call;
the transient `GETTING_PROMPTS` sub-phase shown while awaiting is collapsed
into the single step (no claim mentions it).  The `< 3`-words branch of the
custom path opens the settings modal and leaves the game state unchanged. -/

def customPromptsOf (ws : WordSet) : List Prompt :=
  ws.easy.map (fun w => { word := w, category := "Easy", difficulty := .easy }) ++
    ws.medium.map (fun w => { word := w, category := "Medium", difficulty := .medium }) ++
    ws.hard.map (fun w => { word := w, category := "Hard", difficulty := .hard })

def startMatch (s : AppState) (fetched : List Prompt) (r1 r2 r3 : Nat) : AppState :=
  if s.game.players.length < 2 then s
  else
    match s.game.wordSource with
    | .ai => setupTurn { s with allPrompts := fetched } 0 1 fetched r1 r2 r3
    | .custom =>
        if (customPromptsOf s.activeSet).length < 3 then s
        else
          setupTurn { s with allPrompts := customPromptsOf s.activeSet } 0 1
            (customPromptsOf s.activeSet) r1 r2 r3

/-! ## The remaining transition bodies (src/App.tsx lines 179-317) -/

/-- One firing of the timer interval callback (lines 181-194): at
`timer <= 1` it appends the timeout history entry and moves to `POST_TURN`
in the same update; otherwise it decrements the timer. -/
def timerTick (g : GameState) : GameState :=
  if g.timer ≤ 1 then
    { g with
      timer := 0
      history := g.history ++
        [{ playerName := nameAt g.players g.currentPlayerIndex
           word := wordOf g.currentPrompt
           wasCorrect := false
           winners := [] }]
      subPhase := some .POST_TURN }
  else
    { g with timer := g.timer - 1 }

/-- `skipTurn` (lines 208-223): the same timeout-shaped entry, timer kept. -/
def skipTurn (g : GameState) : GameState :=
  { g with
    history := g.history ++
      [{ playerName := nameAt g.players g.currentPlayerIndex
         word := wordOf g.currentPrompt
         wasCorrect := false
         winners := [] }]
    subPhase := some .POST_TURN }

/-- `submitScore` (lines 225-255). -/
def submitScore (s : AppState) : AppState :=
  let isSpeedBonus := SPEED_BONUS_THRESHOLD ≤ s.game.timer
  let base := basePointsOf s.game.currentPrompt
  let drawerId := idAt s.game.players s.game.currentPlayerIndex
  let nextPlayers := s.game.players.map fun p =>
    let bonus : Int :=
      (if p.id = drawerId ∧ s.selectedGuesserIds ≠ [] then base else 0) +
        (if p.id ∈ s.selectedGuesserIds then base + (if isSpeedBonus then 1 else 0)
         else 0)
    { p with score := p.score + bonus }
  let winners :=
    (s.game.players.filter fun p => p.id ∈ s.selectedGuesserIds).map Player.name
  let entry : HistoryEntry :=
    { playerName := nameAt s.game.players s.game.currentPlayerIndex
      word := wordOf s.game.currentPrompt
      wasCorrect := decide (s.selectedGuesserIds ≠ [])
      winners := winners }
  { s with game :=
    { s.game with
      players := nextPlayers
      history := s.game.history ++ [entry]
      subPhase := some .POST_TURN } }

/-- The per-player score delta that `submitScore` applies — definitionally
the body of its `players.map` (stated separately so the theorems can name
the updated player). -/
def submitBonus (s : AppState) (q : Player) : Int :=
  (if q.id = idAt s.game.players s.game.currentPlayerIndex ∧
      s.selectedGuesserIds ≠ [] then basePointsOf s.game.currentPrompt else 0) +
    (if q.id ∈ s.selectedGuesserIds then
      basePointsOf s.game.currentPrompt +
        (if SPEED_BONUS_THRESHOLD ≤ s.game.timer then 1 else 0)
     else 0)

/-- `nextTurn` (lines 257-264). -/
def nextTurn (s : AppState) (r1 r2 r3 : Nat) : AppState :=
  let nextIdx := (s.game.currentPlayerIndex + 1) % s.game.players.length
  if nextIdx = 0 then
    { s with game := { s.game with subPhase := some .ROUND_LEADERBOARD } }
  else
    setupTurn s nextIdx s.game.rounds s.allPrompts r1 r2 r3

/-- `nextRound` (lines 266-272). -/
def nextRound (s : AppState) (r1 r2 r3 : Nat) : AppState :=
  if s.game.maxRounds ≤ s.game.rounds then
    { s with game := { s.game with phase := .GAME_OVER, subPhase := none } }
  else
    setupTurn s 0 (s.game.rounds + 1) s.allPrompts r1 r2 r3

/-- Toggling a guesser in the `CONFIRM_SCORE` list (lines 474-482):
`Set.delete` when present, `Set.add` when absent. -/
def toggleId (l : List String) (pid : String) : List String :=
  if pid ∈ l then l.erase pid else l ++ [pid]

/-! ## Events and the step function

Each event is a discrete UI signal; the guards record in which phase and
sub-phase the corresponding control is rendered (and, for the timer tick,
when the interval is armed: `subPhase === DRAWING && timer > 0`). -/

inductive Event
  | addPlayerE (pid nm : String)
  | removePlayerE (pid : String)
  | setWordSourceE (ws : WordSource)
  | startMatchE (fetched : List Prompt) (r1 r2 r3 : Nat)
  | readyE
  | selectPromptE (i : Nat)
  | tickE
  | confirmSolvedE
  | toggleGuesserE (i : Nat)
  | backToDrawingE
  | submitScoreE
  | skipTurnE
  | nextTurnE (r1 r2 r3 : Nat)
  | nextRoundE (r1 r2 r3 : Nat)
  | endEarlyE
  | restartMatchE
  | exitToHomeE
deriving DecidableEq, Repr

def step (s : AppState) : Event → AppState
  | .addPlayerE pid nm =>
      if s.game.phase = .HOME ∧ jsTrim nm ≠ emptyStr ∧ pid ∉ s.game.players.map Player.id then
        { s with game :=
          { s.game with players := s.game.players ++ [{ id := pid, name := jsTrim nm, score := 0 }] } }
      else s
  | .removePlayerE pid =>
      if s.game.phase = .HOME then
        { s with game := { s.game with players := s.game.players.filter fun p => p.id ≠ pid } }
      else s
  | .setWordSourceE ws =>
      if s.game.phase = .HOME then
        { s with game := { s.game with wordSource := ws } }
      else s
  | .startMatchE fetched r1 r2 r3 =>
      if s.game.phase = .HOME then startMatch s fetched r1 r2 r3 else s
  | .readyE =>
      if s.game.phase = .PLAYING ∧ s.game.subPhase = some .PRE_TURN then
        { s with game := { s.game with subPhase := some .CHOOSE_PROMPT } }
      else s
  | .selectPromptE i =>
      if s.game.phase = .PLAYING ∧ s.game.subPhase = some .CHOOSE_PROMPT then
        match s.game.promptChoices.get? i with
        | some p =>
            { s with game := { s.game with currentPrompt := some p, subPhase := some .DRAWING } }
        | none => s
      else s
  | .tickE =>
      if s.game.phase = .PLAYING ∧ s.game.subPhase = some .DRAWING ∧ 0 < s.game.timer then
        { s with game := timerTick s.game }
      else s
  | .confirmSolvedE =>
      if s.game.phase = .PLAYING ∧ s.game.subPhase = some .DRAWING then
        { s with
          selectedGuesserIds := []
          game := { s.game with subPhase := some .CONFIRM_SCORE } }
      else s
  | .toggleGuesserE i =>
      if s.game.phase = .PLAYING ∧ s.game.subPhase = some .CONFIRM_SCORE ∧
          i < s.game.players.length ∧ i ≠ s.game.currentPlayerIndex then
        { s with selectedGuesserIds := toggleId s.selectedGuesserIds (idAt s.game.players i) }
      else s
  | .backToDrawingE =>
      if s.game.phase = .PLAYING ∧ s.game.subPhase = some .CONFIRM_SCORE then
        { s with game := { s.game with subPhase := some .DRAWING } }
      else s
  | .submitScoreE =>
      if s.game.phase = .PLAYING ∧ s.game.subPhase = some .CONFIRM_SCORE then
        submitScore s
      else s
  | .skipTurnE =>
      if s.game.phase = .PLAYING ∧ s.game.subPhase = some .DRAWING then
        { s with game := skipTurn s.game }
      else s
  | .nextTurnE r1 r2 r3 =>
      if s.game.phase = .PLAYING ∧ s.game.subPhase = some .POST_TURN then
        nextTurn s r1 r2 r3
      else s
  | .nextRoundE r1 r2 r3 =>
      if s.game.phase = .PLAYING ∧ s.game.subPhase = some .ROUND_LEADERBOARD then
        nextRound s r1 r2 r3
      else s
  | .endEarlyE =>
      if s.game.phase = .PLAYING ∧
          (s.game.subPhase = some .PRE_TURN ∨ s.game.subPhase = some .DRAWING) then
        { s with game := { s.game with phase := .GAME_OVER, subPhase := none } }
      else s
  | .restartMatchE =>
      if s.game.phase = .GAME_OVER then
        { s with game :=
          { s.game with
            phase := .HOME
            subPhase := none
            players := s.game.players.map fun p => { p with score := 0 }
            currentPlayerIndex := 0
            currentPrompt := none
            history := []
            timer := DEFAULT_TIME
            rounds := 1 } }
      else s
  | .exitToHomeE =>
      if s.game.phase = .GAME_OVER then
        { s with game :=
          { phase := .HOME
            subPhase := none
            players := []
            currentPlayerIndex := 0
            currentPrompt := none
            promptChoices := []
            timer := DEFAULT_TIME
            rounds := 1
            maxRounds := MAX_ROUNDS
            wordSource := s.game.wordSource
            history := [] } }
      else s

/-- The initial component state: `wordSource` and the active word bank are
whatever `localStorage` supplied (hence parameters). -/
def initState (ws : WordSource) (bank : WordSet) : AppState :=
  { game :=
    { phase := .HOME
      subPhase := none
      players := []
      currentPlayerIndex := 0
      currentPrompt := none
      promptChoices := []
      timer := DEFAULT_TIME
      rounds := 1
      maxRounds := MAX_ROUNDS
      wordSource := ws
      history := [] }
    allPrompts := []
    selectedGuesserIds := []
    activeSet := bank }

/-- Observable states: everything reachable from some initial state. -/
inductive Reachable : AppState → Prop
  | init (ws : WordSource) (bank : WordSet) : Reachable (initState ws bank)
  | next {s : AppState} (e : Event) : Reachable s → Reachable (step s e)

/-! ## Invariants of the reachable states -/

theorem rndPick_length {r : Nat} {arr : List Prompt} (h : arr ≠ []) :
    (rndPick r arr).length = 1 := by
  have hlen : 0 < arr.length := List.length_pos.mpr h
  have hlt : r % arr.length < arr.length := Nat.mod_lt _ hlen
  rcases hg : arr.get? (r % arr.length) with _ | p
  · exact absurd (List.get?_eq_none.mp hg) (Nat.not_le.mpr hlt)
  · unfold rndPick
    rw [hg]
    rfl

theorem setupChoices_length {ws : WordSource} {pool : List Prompt} {r1 r2 r3 : Nat}
    (hpool : pool ≠ []) (h : ws = .ai ∨ 3 ≤ pool.length) :
    (setupChoices ws pool r1 r2 r3).length = 3 := by
  have aux : ∀ (r : Nat) (l : List Prompt),
      (rndPick r (if l.length ≠ 0 then l else pool)).length = 1 := by
    intro r l
    by_cases hl : l.length ≠ 0
    · rw [if_pos hl]
      exact rndPick_length fun hemp => hl (by simp [hemp])
    · rw [if_neg hl]
      exact rndPick_length hpool
  by_cases hb : ws = .ai ∨ 3 < pool.length
  · simp only [setupChoices, if_pos hb, List.length_append]
    rw [aux, aux, aux]
  · simp only [setupChoices, if_neg hb]
    push_neg at hb
    rcases h with h | h
    · exact absurd h hb.1
    · rw [List.length_take]
      omega

/-- The inductive invariant of the `App.tsx` machine. -/
structure Inv (s : AppState) : Prop where
  subPhase_playing : s.game.subPhase ≠ none → s.game.phase = .PLAYING
  two_players : s.game.phase = .PLAYING → 2 ≤ s.game.players.length
  idx_lt : s.game.phase = .PLAYING →
    s.game.currentPlayerIndex < s.game.players.length
  ids_nodup : (s.game.players.map Player.id).Nodup
  timer_pos : (s.game.subPhase = some .PRE_TURN ∨ s.game.subPhase = some .CHOOSE_PROMPT ∨
      s.game.subPhase = some .DRAWING ∨ s.game.subPhase = some .CONFIRM_SCORE) →
      1 ≤ s.game.timer
  drawer_not_guesser : s.game.subPhase = some .CONFIRM_SCORE →
      ∀ p, s.game.players.get? s.game.currentPlayerIndex = some p →
        p.id ∉ s.selectedGuesserIds
  custom_pool : s.game.phase = .PLAYING → s.game.wordSource = .custom →
      3 ≤ s.allPrompts.length
  choices_three : (s.game.subPhase = some .PRE_TURN ∨
      s.game.subPhase = some .CHOOSE_PROMPT) →
      s.allPrompts ≠ [] → s.game.promptChoices.length = 3

theorem inv_setupTurn {s : AppState} {idx roundNum : Nat} {pool : List Prompt}
    {r1 r2 r3 : Nat}
    (hlen : 2 ≤ s.game.players.length)
    (hidx : idx < s.game.players.length)
    (hnodup : (s.game.players.map Player.id).Nodup)
    (hpool : s.allPrompts = pool)
    (hcustom : s.game.wordSource = .custom → 3 ≤ pool.length) :
    Inv (setupTurn s idx roundNum pool r1 r2 r3) := by
  refine ⟨fun _ => rfl, fun _ => hlen, fun _ => hidx, hnodup, fun _ => by norm_num [setupTurn, DEFAULT_TIME], ?_, fun _ hc => hpool ▸ hcustom hc, ?_⟩
  · intro hcontra
    simp [setupTurn] at hcontra
  · intro _ hne
    have hne' : pool ≠ [] := by
      simpa [setupTurn, hpool] using hne
    refine setupChoices_length hne' ?_
    rcases hws : s.game.wordSource with _ | _
    · exact Or.inl rfl
    · exact Or.inr (hcustom hws)

/-- Every step of the machine preserves the invariant. -/
theorem inv_step {s : AppState} (h : Inv s) (e : Event) : Inv (step s e) := by
  obtain ⟨h1, h2, h3, h4, h5, h6, h7, h8⟩ := h
  have hInv : Inv s := ⟨h1, h2, h3, h4, h5, h6, h7, h8⟩
  cases e with
  | addPlayerE pid nm =>
      simp only [step]
      by_cases hg : s.game.phase = .HOME ∧ jsTrim nm ≠ emptyStr ∧
          pid ∉ s.game.players.map Player.id
      · rw [if_pos hg]
        have hnone : s.game.subPhase = none := by
          by_contra hne
          have hpl := h1 hne
          rw [hpl] at hg
          exact absurd hg.1 (by decide)
        have hph : s.game.phase ≠ .PLAYING := by
          rw [hg.1]; decide
        refine ⟨?_, ?_, ?_, ?_, ?_, ?_, ?_, ?_⟩
        · intro hne; exact absurd hnone hne
        · intro hp; exact absurd hp hph
        · intro hp; exact absurd hp hph
        · show ((s.game.players ++ [({ id := pid, name := jsTrim nm, score := 0 } : Player)]).map
            Player.id).Nodup
          rw [List.map_append, List.nodup_append]
          refine ⟨h4, List.nodup_singleton _, ?_⟩
          intro a ha hb
          rw [List.map_singleton, List.mem_singleton] at hb
          have hb' : a = pid := hb
          exact hg.2.2 (hb' ▸ ha)
        · intro hsp
          rcases hsp with hsp | hsp | hsp | hsp <;> exact absurd (hnone ▸ hsp) (by simp)
        · intro hsp
          exact absurd (hnone ▸ hsp) (by simp)
        · intro hp; exact absurd hp hph
        · intro hsp
          rcases hsp with hsp | hsp <;> exact absurd (hnone ▸ hsp) (by simp)
      · rw [if_neg hg]; exact hInv
  | removePlayerE pid =>
      simp only [step]
      by_cases hg : s.game.phase = .HOME
      · rw [if_pos hg]
        have hnone : s.game.subPhase = none := by
          by_contra hne
          have hpl := h1 hne
          rw [hpl] at hg
          exact absurd hg (by decide)
        have hph : s.game.phase ≠ .PLAYING := by
          rw [hg]; decide
        refine ⟨?_, ?_, ?_, ?_, ?_, ?_, ?_, ?_⟩
        · intro hne; exact absurd hnone hne
        · intro hp; exact absurd hp hph
        · intro hp; exact absurd hp hph
        · exact List.Nodup.sublist ((List.filter_sublist s.game.players).map Player.id) h4
        · intro hsp
          rcases hsp with hsp | hsp | hsp | hsp <;> exact absurd (hnone ▸ hsp) (by simp)
        · intro hsp
          exact absurd (hnone ▸ hsp) (by simp)
        · intro hp; exact absurd hp hph
        · intro hsp
          rcases hsp with hsp | hsp <;> exact absurd (hnone ▸ hsp) (by simp)
      · rw [if_neg hg]; exact hInv
  | setWordSourceE ws =>
      simp only [step]
      by_cases hg : s.game.phase = .HOME
      · rw [if_pos hg]
        have hnone : s.game.subPhase = none := by
          by_contra hne
          have hpl := h1 hne
          rw [hpl] at hg
          exact absurd hg (by decide)
        have hph : s.game.phase ≠ .PLAYING := by
          rw [hg]; decide
        refine ⟨?_, ?_, ?_, ?_, ?_, ?_, ?_, ?_⟩
        · intro hne; exact absurd hnone hne
        · intro hp; exact absurd hp hph
        · intro hp; exact absurd hp hph
        · exact h4
        · intro hsp
          rcases hsp with hsp | hsp | hsp | hsp <;> exact absurd (hnone ▸ hsp) (by simp)
        · intro hsp
          exact absurd (hnone ▸ hsp) (by simp)
        · intro hp; exact absurd hp hph
        · intro hsp
          rcases hsp with hsp | hsp <;> exact absurd (hnone ▸ hsp) (by simp)
      · rw [if_neg hg]; exact hInv
  | startMatchE fetched r1 r2 r3 =>
      simp only [step]
      by_cases hg : s.game.phase = .HOME
      · rw [if_pos hg]
        unfold startMatch
        by_cases hn : s.game.players.length < 2
        · rw [if_pos hn]; exact hInv
        · rw [if_neg hn]
          rcases hws : s.game.wordSource with _ | _

          · exact inv_setupTurn (show 2 ≤ s.game.players.length by omega)
              (show 0 < s.game.players.length by omega) h4 rfl
              (fun hc => absurd (hws ▸ hc) (by simp))
          · by_cases hc3 : (customPromptsOf s.activeSet).length < 3
            · rw [if_pos hc3]; exact hInv
            · rw [if_neg hc3]
              exact inv_setupTurn (show 2 ≤ s.game.players.length by omega)
                (show 0 < s.game.players.length by omega) h4 rfl (fun _ => by omega)
      · rw [if_neg hg]; exact hInv
  | readyE =>
      simp only [step]
      by_cases hg : s.game.phase = .PLAYING ∧ s.game.subPhase = some .PRE_TURN
      · rw [if_pos hg]
        refine ⟨fun _ => hg.1, h2, h3, h4, ?_, ?_, h7, ?_⟩
        · intro _; exact h5 (Or.inl hg.2)
        · intro hsp
          exact absurd hsp (by simp)
        · intro _ hne
          exact h8 (Or.inl hg.2) hne
      · rw [if_neg hg]; exact hInv
  | selectPromptE i =>
      simp only [step]
      by_cases hg : s.game.phase = .PLAYING ∧ s.game.subPhase = some .CHOOSE_PROMPT
      · rw [if_pos hg]
        rcases hq : s.game.promptChoices.get? i with _ | p
        · exact hInv
        · refine ⟨fun _ => hg.1, h2, h3, h4, ?_, ?_, h7, ?_⟩
          · intro _; exact h5 (Or.inr (Or.inl hg.2))
          · intro hsp
            exact absurd hsp (by simp)
          · intro hsp
            rcases hsp with hsp | hsp <;> exact absurd hsp (by simp)
      · rw [if_neg hg]; exact hInv
  | tickE =>
      simp only [step]
      by_cases hg : s.game.phase = .PLAYING ∧ s.game.subPhase = some .DRAWING ∧
          0 < s.game.timer
      · rw [if_pos hg]
        unfold timerTick
        by_cases ht : s.game.timer ≤ 1
        · rw [if_pos ht]
          refine ⟨fun _ => hg.1, h2, h3, h4, ?_, ?_, h7, ?_⟩
          · intro hsp
            rcases hsp with hsp | hsp | hsp | hsp <;> exact absurd hsp (by simp)
          · intro hsp
            exact absurd hsp (by simp)
          · intro hsp
            rcases hsp with hsp | hsp <;> exact absurd hsp (by simp)
        · rw [if_neg ht]
          refine ⟨fun _ => hg.1, h2, h3, h4, ?_, ?_, h7, ?_⟩
          · intro _
            show (1 : Int) ≤ s.game.timer - 1
            omega
          · intro hsp
            exact absurd (hg.2.1.symm.trans hsp) (by simp)
          · intro hsp
            rcases hsp with hsp | hsp <;> exact absurd (hg.2.1.symm.trans hsp) (by simp)
      · rw [if_neg hg]; exact hInv
  | confirmSolvedE =>
      simp only [step]
      by_cases hg : s.game.phase = .PLAYING ∧ s.game.subPhase = some .DRAWING
      · rw [if_pos hg]
        refine ⟨fun _ => hg.1, h2, h3, h4, ?_, ?_, h7, ?_⟩
        · intro _; exact h5 (Or.inr (Or.inr (Or.inl hg.2)))
        · intro _ p _
          exact List.not_mem_nil p.id
        · intro hsp
          rcases hsp with hsp | hsp <;> exact absurd hsp (by simp)
      · rw [if_neg hg]; exact hInv
  | toggleGuesserE i =>
      simp only [step]
      by_cases hg : s.game.phase = .PLAYING ∧ s.game.subPhase = some .CONFIRM_SCORE ∧
          i < s.game.players.length ∧ i ≠ s.game.currentPlayerIndex
      · rw [if_pos hg]
        obtain ⟨hp, hsp, hi, hne⟩ := hg
        refine ⟨h1, h2, h3, h4, h5, ?_, h7, h8⟩
        intro _ p hp'
        have hp'' : s.game.players.get? s.game.currentPlayerIndex = some p := hp'
        have hold : p.id ∉ s.selectedGuesserIds := h6 hsp p hp''
        have hidx : s.game.currentPlayerIndex < s.game.players.length := h3 hp
        rcases hq : s.game.players.get? i with _ | q
        · exact absurd (List.get?_eq_none.mp hq) (Nat.not_le.mpr hi)
        · have hqp : q.id ≠ p.id := by
            intro hEq
            have hgi : (s.game.players.map Player.id).get? i = some q.id := by
              rw [List.get?_map, hq]; rfl
            have hgidx : (s.game.players.map Player.id).get? s.game.currentPlayerIndex =
                some p.id := by
              rw [List.get?_map, hp'']; rfl
            have : i = s.game.currentPlayerIndex := by
              refine List.get?_inj (by simpa using hi) h4 ?_
              rw [hgi, hgidx, hEq]
            exact hne this
          have hid : idAt s.game.players i = q.id := by
            unfold idAt; rw [hq]; rfl
          show p.id ∉ toggleId s.selectedGuesserIds (idAt s.game.players i)
          rw [hid]
          unfold toggleId
          by_cases hmem : q.id ∈ s.selectedGuesserIds
          · rw [if_pos hmem]
            intro hcon
            exact hold (List.mem_of_mem_erase hcon)
          · rw [if_neg hmem]
            intro hcon
            rcases List.mem_append.mp hcon with hcon | hcon
            · exact hold hcon
            · rw [List.mem_singleton] at hcon
              exact hqp hcon.symm
      · rw [if_neg hg]; exact hInv
  | backToDrawingE =>
      simp only [step]
      by_cases hg : s.game.phase = .PLAYING ∧ s.game.subPhase = some .CONFIRM_SCORE
      · rw [if_pos hg]
        refine ⟨fun _ => hg.1, h2, h3, h4, ?_, ?_, h7, ?_⟩
        · intro _; exact h5 (Or.inr (Or.inr (Or.inr hg.2)))
        · intro hsp
          exact absurd hsp (by simp)
        · intro hsp
          rcases hsp with hsp | hsp <;> exact absurd hsp (by simp)
      · rw [if_neg hg]; exact hInv
  | submitScoreE =>
      simp only [step]
      by_cases hg : s.game.phase = .PLAYING ∧ s.game.subPhase = some .CONFIRM_SCORE
      · rw [if_pos hg]
        refine ⟨fun _ => hg.1, ?_, ?_, ?_, ?_, ?_, h7, ?_⟩
        · intro _
          show 2 ≤ (s.game.players.map _).length
          rw [List.length_map]
          exact h2 hg.1
        · intro _
          show s.game.currentPlayerIndex < (s.game.players.map _).length
          rw [List.length_map]
          exact h3 hg.1
        · show ((s.game.players.map _).map Player.id).Nodup
          rw [List.map_map]
          exact h4
        · intro hsp
          rcases hsp with hsp | hsp | hsp | hsp <;> exact absurd hsp (by simp [submitScore])
        · intro hsp
          exact absurd hsp (by simp [submitScore])
        · intro hsp
          rcases hsp with hsp | hsp <;> exact absurd hsp (by simp [submitScore])
      · rw [if_neg hg]; exact hInv
  | skipTurnE =>
      simp only [step]
      by_cases hg : s.game.phase = .PLAYING ∧ s.game.subPhase = some .DRAWING
      · rw [if_pos hg]
        refine ⟨fun _ => hg.1, h2, h3, h4, ?_, ?_, h7, ?_⟩
        · intro hsp
          rcases hsp with hsp | hsp | hsp | hsp <;> exact absurd hsp (by simp [skipTurn])
        · intro hsp
          exact absurd hsp (by simp [skipTurn])
        · intro hsp
          rcases hsp with hsp | hsp <;> exact absurd hsp (by simp [skipTurn])
      · rw [if_neg hg]; exact hInv
  | nextTurnE r1 r2 r3 =>
      simp only [step]
      by_cases hg : s.game.phase = .PLAYING ∧ s.game.subPhase = some .POST_TURN
      · rw [if_pos hg]
        unfold nextTurn
        by_cases hz : (s.game.currentPlayerIndex + 1) % s.game.players.length = 0
        · rw [if_pos hz]
          refine ⟨fun _ => hg.1, h2, h3, h4, ?_, ?_, h7, ?_⟩
          · intro hsp
            rcases hsp with hsp | hsp | hsp | hsp <;> exact absurd hsp (by simp)
          · intro hsp
            exact absurd hsp (by simp)
          · intro hsp
            rcases hsp with hsp | hsp <;> exact absurd hsp (by simp)
        · rw [if_neg hz]
          have hlen := h2 hg.1
          exact inv_setupTurn hlen (Nat.mod_lt _ (by omega)) h4 rfl (h7 hg.1)
      · rw [if_neg hg]; exact hInv
  | nextRoundE r1 r2 r3 =>
      simp only [step]
      by_cases hg : s.game.phase = .PLAYING ∧ s.game.subPhase = some .ROUND_LEADERBOARD
      · rw [if_pos hg]
        unfold nextRound
        by_cases hm : s.game.maxRounds ≤ s.game.rounds
        · rw [if_pos hm]
          refine ⟨?_, ?_, ?_, h4, ?_, ?_, ?_, ?_⟩
          · intro hne; exact absurd rfl hne
          · intro hp; simp at hp
          · intro hp; simp at hp
          · intro hsp
            rcases hsp with hsp | hsp | hsp | hsp <;> exact absurd hsp (by simp)
          · intro hsp
            exact absurd hsp (by simp)
          · intro hp; simp at hp
          · intro hsp
            rcases hsp with hsp | hsp <;> exact absurd hsp (by simp)
        · rw [if_neg hm]
          have hlen := h2 hg.1
          exact inv_setupTurn hlen (by omega) h4 rfl (h7 hg.1)
      · rw [if_neg hg]; exact hInv
  | endEarlyE =>
      simp only [step]
      by_cases hg : s.game.phase = .PLAYING ∧
          (s.game.subPhase = some .PRE_TURN ∨ s.game.subPhase = some .DRAWING)
      · rw [if_pos hg]
        refine ⟨?_, ?_, ?_, h4, ?_, ?_, ?_, ?_⟩
        · intro hne; exact absurd rfl hne
        · intro hp; simp at hp
        · intro hp; simp at hp
        · intro hsp
          rcases hsp with hsp | hsp | hsp | hsp <;> exact absurd hsp (by simp)
        · intro hsp
          exact absurd hsp (by simp)
        · intro hp; simp at hp
        · intro hsp
          rcases hsp with hsp | hsp <;> exact absurd hsp (by simp)
      · rw [if_neg hg]; exact hInv
  | restartMatchE =>
      simp only [step]
      by_cases hg : s.game.phase = .GAME_OVER
      · rw [if_pos hg]
        refine ⟨?_, ?_, ?_, ?_, ?_, ?_, ?_, ?_⟩
        · intro hne; exact absurd rfl hne
        · intro hp; simp at hp
        · intro hp; simp at hp
        · show ((s.game.players.map _).map Player.id).Nodup
          rw [List.map_map]
          exact h4
        · intro hsp
          rcases hsp with hsp | hsp | hsp | hsp <;> exact absurd hsp (by simp)
        · intro hsp
          exact absurd hsp (by simp)
        · intro hp; simp at hp
        · intro hsp
          rcases hsp with hsp | hsp <;> exact absurd hsp (by simp)
      · rw [if_neg hg]; exact hInv
  | exitToHomeE =>
      simp only [step]
      by_cases hg : s.game.phase = .GAME_OVER
      · rw [if_pos hg]
        refine ⟨?_, ?_, ?_, ?_, ?_, ?_, ?_, ?_⟩
        · intro hne; exact absurd rfl hne
        · intro hp; simp at hp
        · intro hp; simp at hp
        · exact List.nodup_nil
        · intro hsp
          rcases hsp with hsp | hsp | hsp | hsp <;> exact absurd hsp (by simp)
        · intro hsp
          exact absurd hsp (by simp)
        · intro hp; simp at hp
        · intro hsp
          rcases hsp with hsp | hsp <;> exact absurd hsp (by simp)
      · rw [if_neg hg]; exact hInv

theorem inv_init (ws : WordSource) (bank : WordSet) : Inv (initState ws bank) := by
  refine ⟨?_, ?_, ?_, List.nodup_nil, ?_, ?_, ?_, ?_⟩
  · intro hne; exact absurd rfl hne
  · intro hp; simp [initState] at hp
  · intro hp; simp [initState] at hp
  · intro hsp
    rcases hsp with hsp | hsp | hsp | hsp <;> exact absurd hsp (by simp [initState])
  · intro hsp
    exact absurd hsp (by simp [initState])
  · intro hp; simp [initState] at hp
  · intro hsp
    rcases hsp with hsp | hsp <;> exact absurd hsp (by simp [initState])

/-- Every reachable (= observable) state satisfies the invariant. -/
theorem reachable_inv {s : AppState} (h : Reachable s) : Inv s := by
  induction h with
  | init ws bank => exact inv_init ws bank
  | next e _ ih => exact inv_step ih e

theorem one_le_diffMap (d : Difficulty) : 1 ≤ diffMap d := by
  cases d <;> norm_num [diffMap]

theorem one_le_basePointsOf (cp : Option Prompt) : 1 ≤ basePointsOf cp :=
  one_le_diffMap _

/-! ## Concrete example states used by the witnesses -/

def idA : String := "a1"

def nmA : String := "Alice"

def idB : String := "b2"

def nmB : String := "Bob"

def playerA : Player := { id := idA, name := nmA, score := 0 }

def playerB : Player := { id := idB, name := nmB, score := 0 }

def promptCat : Prompt := { word := "cat", category := "Animals", difficulty := .easy }

def promptRobot : Prompt := { word := "robot", category := "Objects", difficulty := .medium }

def promptGravity : Prompt := { word := "gravity", category := "Abstract", difficulty := .hard }

def bank0 : WordSet := { id := "default", name := "Classic Pack", easy := [], medium := [], hard := [] }

def ex0 : AppState := initState .ai bank0

def ex1 : AppState := step ex0 (.addPlayerE idA nmA)

def ex2 : AppState := step ex1 (.addPlayerE idB nmB)

def ex3 : AppState := step ex2 (.startMatchE [promptCat, promptRobot, promptGravity] 0 0 0)

def ex4 : AppState := step ex3 .readyE

def ex5 : AppState := step ex4 (.selectPromptE 0)

def ex6 : AppState := step ex5 .confirmSolvedE

def ex7 : AppState := step ex6 (.toggleGuesserE 1)

theorem ex4_reachable : Reachable ex4 :=
  .next .readyE (.next _ (.next _ (.next _ (.init .ai bank0))))

theorem ex5_reachable : Reachable ex5 :=
  .next (.selectPromptE 0) ex4_reachable

theorem ex7_reachable : Reachable ex7 :=
  .next (.toggleGuesserE 1) (.next .confirmSolvedE ex5_reachable)

/-- A drawing-phase state on its final second (used to exercise the tick). -/
def exT1 : AppState :=
  { game :=
    { phase := .PLAYING
      subPhase := some .DRAWING
      players := [playerA, playerB]
      currentPlayerIndex := 0
      currentPrompt := some promptCat
      promptChoices := [promptCat, promptRobot, promptGravity]
      timer := 1
      rounds := 1
      maxRounds := MAX_ROUNDS
      wordSource := .ai
      history := [] }
    allPrompts := [promptCat, promptRobot, promptGravity]
    selectedGuesserIds := []
    activeSet := bank0 }

/-- A post-turn state at the last player index. -/
def exPost1 : AppState :=
  { game :=
    { phase := .PLAYING
      subPhase := some .POST_TURN
      players := [playerA, playerB]
      currentPlayerIndex := 1
      currentPrompt := some promptCat
      promptChoices := [promptCat, promptRobot, promptGravity]
      timer := 10
      rounds := 1
      maxRounds := MAX_ROUNDS
      wordSource := .ai
      history := [] }
    allPrompts := [promptCat, promptRobot, promptGravity]
    selectedGuesserIds := []
    activeSet := bank0 }

/-- A round-leaderboard state in the final round. -/
def exRL : AppState :=
  { game :=
    { phase := .PLAYING
      subPhase := some .ROUND_LEADERBOARD
      players := [playerA, playerB]
      currentPlayerIndex := 1
      currentPrompt := none
      promptChoices := [promptCat, promptRobot, promptGravity]
      timer := 10
      rounds := 5
      maxRounds := MAX_ROUNDS
      wordSource := .ai
      history := [] }
    allPrompts := [promptCat, promptRobot, promptGravity]
    selectedGuesserIds := []
    activeSet := bank0 }

/-- A confirm-score state in which the drawer's own id sits in the guesser
set (not producible through the UI, which filters the drawer out; used for
the function-level C10 claim). -/
def exDG : AppState :=
  { game :=
    { phase := .PLAYING
      subPhase := some .CONFIRM_SCORE
      players := [playerA, playerB]
      currentPlayerIndex := 0
      currentPrompt := some promptCat
      promptChoices := [promptCat, promptRobot, promptGravity]
      timer := 60
      rounds := 1
      maxRounds := MAX_ROUNDS
      wordSource := .ai
      history := [] }
    allPrompts := [promptCat, promptRobot, promptGravity]
    selectedGuesserIds := [idA]
    activeSet := bank0 }

/-- A part_000 drawing state on its final second, with empty history. -/
def exState0 : State0 :=
  { players := [playerA, playerB]
    currentPlayerIndex := 0
    currentPrompt := some promptCat
    promptChoices := [promptCat, promptRobot, promptGravity]
    phase := .DRAWING
    timer := 1
    rounds := 1
    maxRounds := 5
    history := [] }

def wordAB : String := "ab"

def wordCat : String := "cat"

/-! ## The claims -/

/-- C3: the claim says a timeout or surrender appends a history entry with
`wasCorrect = false` and empty winners.  In the part_000 variant both the
timer-expiry branch and the Surrender button move to `POST_TURN` with the
history (and scores) untouched: evaluating the embedded handlers at a
drawing state with `timer = 1` and empty history leaves the history empty.
(The App.tsx variant does append the entry — see the C6 theorem.) -/
theorem C3_part000_timeout_appends_nothing :
    (p0TickUpdate exState0).phase = .POST_TURN ∧
    (p0TickUpdate exState0).timer = 0 ∧
    (p0TickUpdate exState0).history = [] ∧
    (p0TickUpdate exState0).players = exState0.players ∧
    (p0Surrender exState0).phase = .POST_TURN ∧
    (p0Surrender exState0).history = [] ∧
    (p0Surrender exState0).players = exState0.players := by
  refine ⟨rfl, rfl, rfl, rfl, rfl, rfl, rfl⟩

/-- C4: in every observable state in the prompt-choosing sub-phase with a
non-empty prompt pool, `promptChoices` has exactly 3 entries, for every
random draw sequence (the draws are the oracle parameters of the events
that led to the state). -/
theorem C4_prompt_choice_cardinality (s : AppState) (hr : Reachable s)
    (hc : s.game.subPhase = some .CHOOSE_PROMPT)
    (hp : s.allPrompts ≠ []) :
    s.game.promptChoices.length = 3 :=
  (reachable_inv hr).choices_three (Or.inr hc) hp

theorem C4_witness : ex4.game.promptChoices.length = 3 :=
  C4_prompt_choice_cardinality ex4 ex4_reachable (by decide) (by decide)

/-- C5 counterexample: the claim as stated fails on the code.  For the easy
two-letter word "ab": at `timer = 20` the character at index 0 is *not*
revealed (the code compares strictly, `timer < 20`, while the claim says
"revealed iff timer ≤ 20"), and at `timer = 5` the character at index
`length - 1 = 1` *is* revealed (it coincides with the mid index
`⌊2/2⌋ = 1`), although the claim says the last character is never
revealed. -/
theorem C5_counterexample :
    hintShown wordAB .easy 20 0 = false ∧
    wordAB.length - 1 = 1 ∧
    hintShown wordAB .easy 5 1 = true := by
  refine ⟨by decide, by decide, by decide⟩

/-- C5 (amended): for easy prompts the length mask is shown iff
`timer ≤ 30`; the character at index 0 is revealed iff `timer < 20`
(strictly); for words of length ≥ 3 the character at index
`⌊length/2⌋` is revealed iff `timer < 10` and the character at index
`length - 1` is never revealed (at non-negative timers); space characters
are never revealed as letters. -/
theorem C5_easy_hint_schedule (w : String) (timer : Int) :
    (showLengthHint .easy timer = true ↔ timer ≤ 30) ∧
    (∀ c, w.data.get? 0 = some c → c ≠ ' ' →
      (hintShown w .easy timer 0 = true ↔ timer < 20)) ∧
    (3 ≤ w.length → ∀ c, w.data.get? (w.length / 2) = some c → c ≠ ' ' →
      (hintShown w .easy timer (w.length / 2) = true ↔ timer < 10)) ∧
    (3 ≤ w.length → 0 ≤ timer → hintShown w .easy timer (w.length - 1) = false) ∧
    (∀ i, w.data.get? i = some ' ' → hintShown w .easy timer i = false) := by
  refine ⟨?_, ?_, ?_, ?_, ?_⟩
  · simp [showLengthHint, lengthTrigger]
  · intro c h0 hc
    have hred : hintShown w .easy timer 0 =
        if c = ' ' then false else decide (isRevealed w .easy timer 0) := by
      unfold hintShown
      rw [h0]
    rw [hred, if_neg hc]
    simp only [decide_eq_true_eq, isRevealed, letter1Trigger, letter2Trigger,
      letter3Trigger, and_true]
    omega
  · intro hlen c h0 hc
    have hred : hintShown w .easy timer (w.length / 2) =
        if c = ' ' then false
        else decide (isRevealed w .easy timer (w.length / 2)) := by
      unfold hintShown
      rw [h0]
    rw [hred, if_neg hc]
    simp only [decide_eq_true_eq, isRevealed, letter1Trigger, letter2Trigger,
      letter3Trigger, and_true]
    omega
  · intro hlen ht
    rcases hq : w.data.get? (w.length - 1) with _ | c
    · unfold hintShown
      rw [hq]
    · have hred : hintShown w .easy timer (w.length - 1) =
          if c = ' ' then false
          else decide (isRevealed w .easy timer (w.length - 1)) := by
        unfold hintShown
        rw [hq]
      rw [hred]
      by_cases hc : c = ' '
      · rw [if_pos hc]
      · rw [if_neg hc]
        simp only [decide_eq_false_iff_not, isRevealed, letter1Trigger,
          letter2Trigger, letter3Trigger, and_true]
        omega
  · intro i hi
    have hred : hintShown w .easy timer i =
        if ' ' = ' ' then false else decide (isRevealed w .easy timer i) := by
      unfold hintShown
      rw [hi]
    rw [hred, if_pos rfl]

theorem C5_witness :
    (showLengthHint .easy 15 = true ↔ (15 : Int) ≤ 30) ∧
    (hintShown wordCat .easy 15 0 = true ↔ (15 : Int) < 20) ∧
    (hintShown wordCat .easy 15 (wordCat.length / 2) = true ↔ (15 : Int) < 10) ∧
    hintShown wordCat .easy 15 (wordCat.length - 1) = false :=
  ⟨(C5_easy_hint_schedule wordCat 15).1,
   (C5_easy_hint_schedule wordCat 15).2.1 'c' (by decide) (by decide),
   (C5_easy_hint_schedule wordCat 15).2.2.1 (by decide) 'a' (by decide) (by decide),
   (C5_easy_hint_schedule wordCat 15).2.2.2.1 (by decide) (by decide)⟩

/-- C9: with fewer than 2 players the start-match signal leaves the whole
state unchanged (the guard fires before anything else: no sub-phase change,
no prompt request, no error). -/
theorem C9_start_refused_under_two (s : AppState) (fetched : List Prompt)
    (r1 r2 r3 : Nat) (h : s.game.players.length < 2) :
    step s (.startMatchE fetched r1 r2 r3) = s := by
  simp only [step]
  by_cases hg : s.game.phase = .HOME
  · rw [if_pos hg]
    unfold startMatch
    rw [if_pos h]
  · rw [if_neg hg]

theorem C9_witness :
    step (initState .ai bank0) (.startMatchE [] 0 0 0) = initState .ai bank0 :=
  C9_start_refused_under_two (initState .ai bank0) [] 0 0 0 (by decide)

/-- C1: on every turn confirmed via the scoring step, each selected guesser's
score grows by exactly `basePoints + 1` when the timer at confirmation is
`≥ 30`, and by exactly `basePoints` otherwise.  (In every observable
confirm-score state the drawer's id is not in the guesser set — the UI
clears the set on entry and only offers non-drawer players — which the
reachability hypothesis captures.) -/
theorem C1_speed_bonus (s : AppState) (hr : Reachable s)
    (hc : s.game.subPhase = some .CONFIRM_SCORE)
    (j : Nat) (p : Player)
    (hj : s.game.players.get? j = some p)
    (hmem : p.id ∈ s.selectedGuesserIds) :
    ∃ p2, (step s .submitScoreE).game.players.get? j = some p2 ∧
      p2.score = p.score + basePointsOf s.game.currentPrompt +
        (if SPEED_BONUS_THRESHOLD ≤ s.game.timer then 1 else 0) := by
  obtain ⟨h1, h2, h3, h4, h5, h6, h7, h8⟩ := reachable_inv hr
  have hp : s.game.phase = .PLAYING := h1 (by rw [hc]; exact Option.some_ne_none _)
  have hguard : s.game.phase = .PLAYING ∧ s.game.subPhase = some .CONFIRM_SCORE :=
    ⟨hp, hc⟩
  have hidx : s.game.currentPlayerIndex < s.game.players.length := h3 hp
  rcases hdq : s.game.players.get? s.game.currentPlayerIndex with _ | d
  · exact absurd (List.get?_eq_none.mp hdq) (Nat.not_le.mpr hidx)
  · have hdid : idAt s.game.players s.game.currentPlayerIndex = d.id := by
      unfold idAt; rw [hdq]; rfl
    have hnd : d.id ∉ s.selectedGuesserIds := h6 hc d hdq
    have hne1 : ¬(p.id = idAt s.game.players s.game.currentPlayerIndex ∧
        s.selectedGuesserIds ≠ []) := by
      rintro ⟨hpe, -⟩
      rw [hdid] at hpe
      exact hnd (hpe ▸ hmem)
    refine ⟨{ p with score := p.score + submitBonus s p }, ?_, ?_⟩
    · simp only [step, if_pos hguard, submitScore]
      rw [List.get?_map, hj]
      rfl
    · show p.score + submitBonus s p = _
      unfold submitBonus
      rw [if_neg hne1, if_pos hmem]
      ring

theorem C1_witness :
    ∃ p2, (step ex7 .submitScoreE).game.players.get? 1 = some p2 ∧
      p2.score = playerB.score + basePointsOf ex7.game.currentPrompt +
        (if SPEED_BONUS_THRESHOLD ≤ ex7.game.timer then 1 else 0) :=
  C1_speed_bonus ex7 ex7_reachable (by decide) 1 playerB (by decide) (by decide)

/-- C2: on every scored turn the drawer's score increases iff the guesser
set is non-empty, and then by exactly `basePoints` — an expression in which
the speed bonus plays no part. -/
theorem C2_drawer_reward (s : AppState) (hr : Reachable s)
    (hc : s.game.subPhase = some .CONFIRM_SCORE)
    (d : Player)
    (hd : s.game.players.get? s.game.currentPlayerIndex = some d) :
    ∃ d2, (step s .submitScoreE).game.players.get? s.game.currentPlayerIndex =
        some d2 ∧
      (s.selectedGuesserIds ≠ [] →
        d2.score = d.score + basePointsOf s.game.currentPrompt ∧
        d.score < d2.score) ∧
      (s.selectedGuesserIds = [] → d2.score = d.score) := by
  obtain ⟨h1, h2, h3, h4, h5, h6, h7, h8⟩ := reachable_inv hr
  have hp : s.game.phase = .PLAYING := h1 (by rw [hc]; exact Option.some_ne_none _)
  have hguard : s.game.phase = .PLAYING ∧ s.game.subPhase = some .CONFIRM_SCORE :=
    ⟨hp, hc⟩
  have hdid : idAt s.game.players s.game.currentPlayerIndex = d.id := by
    unfold idAt; rw [hd]; rfl
  have hnd : d.id ∉ s.selectedGuesserIds := h6 hc d hd
  refine ⟨{ d with score := d.score + submitBonus s d }, ?_, ?_, ?_⟩
  · simp only [step, if_pos hguard, submitScore]
    rw [List.get?_map, hd]
    rfl
  · intro hne
    have hbon : submitBonus s d = basePointsOf s.game.currentPrompt := by
      unfold submitBonus
      rw [if_pos ⟨hdid.symm, hne⟩, if_neg hnd]
      ring
    refine ⟨?_, ?_⟩
    · show d.score + submitBonus s d = _
      rw [hbon]
    · show d.score < d.score + submitBonus s d
      have hb := one_le_basePointsOf s.game.currentPrompt
      rw [hbon]
      linarith
  · intro hemp
    show d.score + submitBonus s d = d.score
    unfold submitBonus
    rw [if_neg (fun hcon => hcon.2 hemp), if_neg hnd]
    ring

theorem C2_witness :
    ∃ d2, (step ex7 .submitScoreE).game.players.get? ex7.game.currentPlayerIndex =
        some d2 ∧
      (ex7.selectedGuesserIds ≠ [] →
        d2.score = playerA.score + basePointsOf ex7.game.currentPrompt ∧
        playerA.score < d2.score) ∧
      (ex7.selectedGuesserIds = [] → d2.score = playerA.score) :=
  C2_drawer_reward ex7 ex7_reachable (by decide) playerA (by decide)

/-- C6: in no observable state is the timer 0 while the sub-phase is still
`DRAWING`; and the tick that reaches 0 sets `timer = 0`, appends the
timeout entry and advances to `POST_TURN` in one state update (the single
return value of the interval callback). -/
theorem C6_timer_drawing_atomic :
    (∀ s : AppState, Reachable s → s.game.subPhase = some .DRAWING →
      1 ≤ s.game.timer) ∧
    (∀ s : AppState, s.game.phase = .PLAYING → s.game.subPhase = some .DRAWING →
      s.game.timer = 1 →
      (step s .tickE).game.timer = 0 ∧
      (step s .tickE).game.subPhase = some .POST_TURN ∧
      (step s .tickE).game.history = s.game.history ++
        [{ playerName := nameAt s.game.players s.game.currentPlayerIndex
           word := wordOf s.game.currentPrompt
           wasCorrect := false
           winners := [] }]) := by
  constructor
  · intro s hr hd
    exact (reachable_inv hr).timer_pos (Or.inr (Or.inr (Or.inl hd)))
  · intro s hp hd ht
    have hguard : s.game.phase = .PLAYING ∧ s.game.subPhase = some .DRAWING ∧
        0 < s.game.timer := ⟨hp, hd, by omega⟩
    have hstep : step s .tickE = { s with game := timerTick s.game } := by
      simp only [step, if_pos hguard]
    rw [hstep]
    unfold timerTick
    rw [if_pos (show s.game.timer ≤ 1 by omega)]
    exact ⟨rfl, rfl, rfl⟩

theorem C6_witness :
    (1 ≤ ex5.game.timer) ∧
    ((step exT1 .tickE).game.timer = 0 ∧
     (step exT1 .tickE).game.subPhase = some .POST_TURN ∧
     (step exT1 .tickE).game.history = exT1.game.history ++
       [{ playerName := nameAt exT1.game.players exT1.game.currentPlayerIndex
          word := wordOf exT1.game.currentPrompt
          wasCorrect := false
          winners := [] }]) :=
  ⟨C6_timer_drawing_atomic.1 ex5 ex5_reachable (by decide),
   C6_timer_drawing_atomic.2 exT1 rfl rfl rfl⟩

/-- C7: advancing from `POST_TURN` at the last player index always lands in
`ROUND_LEADERBOARD` (never directly in `PRE_TURN`), and proceeding from
`ROUND_LEADERBOARD` in the final round reaches `GAME_OVER` with the round
counter unchanged. -/
theorem C7_round_wrap :
    (∀ (s : AppState) (r1 r2 r3 : Nat),
      s.game.phase = .PLAYING → s.game.subPhase = some .POST_TURN →
      2 ≤ s.game.players.length →
      s.game.currentPlayerIndex = s.game.players.length - 1 →
      (step s (.nextTurnE r1 r2 r3)).game.subPhase = some .ROUND_LEADERBOARD) ∧
    (∀ (s : AppState) (r1 r2 r3 : Nat),
      s.game.phase = .PLAYING → s.game.subPhase = some .ROUND_LEADERBOARD →
      s.game.rounds = s.game.maxRounds →
      (step s (.nextRoundE r1 r2 r3)).game.phase = .GAME_OVER ∧
      (step s (.nextRoundE r1 r2 r3)).game.rounds = s.game.rounds) := by
  constructor
  · intro s r1 r2 r3 hp hsp hlen hidx
    have hguard : s.game.phase = .PLAYING ∧ s.game.subPhase = some .POST_TURN :=
      ⟨hp, hsp⟩
    have hz : (s.game.currentPlayerIndex + 1) % s.game.players.length = 0 := by
      rw [hidx, Nat.sub_add_cancel (by omega)]
      exact Nat.mod_self _
    have hstep : step s (.nextTurnE r1 r2 r3) = nextTurn s r1 r2 r3 := by
      simp only [step, if_pos hguard]
    rw [hstep]
    simp only [nextTurn]
    rw [if_pos hz]
  · intro s r1 r2 r3 hp hsp hr
    have hguard : s.game.phase = .PLAYING ∧
        s.game.subPhase = some .ROUND_LEADERBOARD := ⟨hp, hsp⟩
    have hm : s.game.maxRounds ≤ s.game.rounds := by omega
    have hstep : step s (.nextRoundE r1 r2 r3) = nextRound s r1 r2 r3 := by
      simp only [step, if_pos hguard]
    rw [hstep]
    unfold nextRound
    rw [if_pos hm]
    exact ⟨rfl, rfl⟩

theorem C7_witness :
    (step exPost1 (.nextTurnE 0 0 0)).game.subPhase = some .ROUND_LEADERBOARD ∧
    (step exRL (.nextRoundE 0 0 0)).game.phase = .GAME_OVER ∧
    (step exRL (.nextRoundE 0 0 0)).game.rounds = exRL.game.rounds :=
  ⟨C7_round_wrap.1 exPost1 0 0 0 rfl rfl (by decide) (by decide),
   (C7_round_wrap.2 exRL 0 0 0 rfl rfl rfl).1,
   (C7_round_wrap.2 exRL 0 0 0 rfl rfl rfl).2⟩

/-- C8: no in-match transition ever decreases a player's score — every
operation that touches a score adds a non-negative delta, so scores are
monotone along every sequence of in-match steps. -/
theorem C8_scores_monotone (s : AppState) (e : Event)
    (hp : s.game.phase = .PLAYING)
    (i : Nat) (p : Player) (hi : s.game.players.get? i = some p) :
    ∃ p2, (step s e).game.players.get? i = some p2 ∧ p.score ≤ p2.score := by
  have hnh : s.game.phase ≠ .HOME := by rw [hp]; decide
  have hngo : s.game.phase ≠ .GAME_OVER := by rw [hp]; decide
  cases e with
  | addPlayerE pid nm =>
      simp only [step]
      rw [if_neg (fun hcon => hnh hcon.1)]
      exact ⟨p, hi, le_rfl⟩
  | removePlayerE pid =>
      simp only [step]
      rw [if_neg hnh]
      exact ⟨p, hi, le_rfl⟩
  | setWordSourceE ws =>
      simp only [step]
      rw [if_neg hnh]
      exact ⟨p, hi, le_rfl⟩
  | startMatchE fetched r1 r2 r3 =>
      simp only [step]
      rw [if_neg hnh]
      exact ⟨p, hi, le_rfl⟩
  | readyE =>
      simp only [step]
      split
      · exact ⟨p, hi, le_rfl⟩
      · exact ⟨p, hi, le_rfl⟩
  | selectPromptE iE =>
      simp only [step]
      split
      · split
        · exact ⟨p, hi, le_rfl⟩
        · exact ⟨p, hi, le_rfl⟩
      · exact ⟨p, hi, le_rfl⟩
  | tickE =>
      simp only [step]
      split
      · unfold timerTick
        split
        · exact ⟨p, hi, le_rfl⟩
        · exact ⟨p, hi, le_rfl⟩
      · exact ⟨p, hi, le_rfl⟩
  | confirmSolvedE =>
      simp only [step]
      split
      · exact ⟨p, hi, le_rfl⟩
      · exact ⟨p, hi, le_rfl⟩
  | toggleGuesserE iE =>
      simp only [step]
      split
      · exact ⟨p, hi, le_rfl⟩
      · exact ⟨p, hi, le_rfl⟩
  | backToDrawingE =>
      simp only [step]
      split
      · exact ⟨p, hi, le_rfl⟩
      · exact ⟨p, hi, le_rfl⟩
  | submitScoreE =>
      simp only [step]
      split
      · simp only [submitScore]
        rw [List.get?_map, hi]
        refine ⟨_, rfl, ?_⟩
        dsimp only
        have hb := one_le_basePointsOf s.game.currentPrompt
        split_ifs <;> linarith
      · exact ⟨p, hi, le_rfl⟩
  | skipTurnE =>
      simp only [step]
      split
      · unfold skipTurn
        exact ⟨p, hi, le_rfl⟩
      · exact ⟨p, hi, le_rfl⟩
  | nextTurnE r1 r2 r3 =>
      simp only [step]
      split
      · simp only [nextTurn]
        split
        · exact ⟨p, hi, le_rfl⟩
        · exact ⟨p, hi, le_rfl⟩
      · exact ⟨p, hi, le_rfl⟩
  | nextRoundE r1 r2 r3 =>
      simp only [step]
      split
      · unfold nextRound
        split
        · exact ⟨p, hi, le_rfl⟩
        · exact ⟨p, hi, le_rfl⟩
      · exact ⟨p, hi, le_rfl⟩
  | endEarlyE =>
      simp only [step]
      split
      · exact ⟨p, hi, le_rfl⟩
      · exact ⟨p, hi, le_rfl⟩
  | restartMatchE =>
      simp only [step]
      rw [if_neg hngo]
      exact ⟨p, hi, le_rfl⟩
  | exitToHomeE =>
      simp only [step]
      rw [if_neg hngo]
      exact ⟨p, hi, le_rfl⟩

theorem C8_witness :
    ∃ p2, (step ex5 .tickE).game.players.get? 0 = some p2 ∧
      playerA.score ≤ p2.score :=
  C8_scores_monotone ex5 .tickE (by decide) 0 playerA (by decide)

/-- C10: `submitScore` sums a drawer award and a guesser award per player
without excluding the drawer's id from the guesser set: on any state whose
drawer id sits in `selectedGuesserIds`, the drawer gains
`2·basePoints (+1 with the speed bonus)` and their own name lands in the
history entry's winners list. -/
theorem C10_drawer_counted_as_guesser (s : AppState) (d : Player)
    (hd : s.game.players.get? s.game.currentPlayerIndex = some d)
    (hmem : d.id ∈ s.selectedGuesserIds) :
    ∃ d2 e2,
      (submitScore s).game.players.get? s.game.currentPlayerIndex = some d2 ∧
      d2.score = d.score + 2 * basePointsOf s.game.currentPrompt +
        (if SPEED_BONUS_THRESHOLD ≤ s.game.timer then 1 else 0) ∧
      (submitScore s).game.history = s.game.history ++ [e2] ∧
      d.name ∈ e2.winners := by
  have hdid : idAt s.game.players s.game.currentPlayerIndex = d.id := by
    unfold idAt; rw [hd]; rfl
  have hne : s.selectedGuesserIds ≠ [] := List.ne_nil_of_mem hmem
  refine ⟨{ d with score := d.score + submitBonus s d },
    { playerName := nameAt s.game.players s.game.currentPlayerIndex
      word := wordOf s.game.currentPrompt
      wasCorrect := decide (s.selectedGuesserIds ≠ [])
      winners := (s.game.players.filter fun q =>
        q.id ∈ s.selectedGuesserIds).map Player.name }, ?_, ?_, ?_, ?_⟩
  · simp only [submitScore]
    rw [List.get?_map, hd]
    rfl
  · show d.score + submitBonus s d = _
    unfold submitBonus
    rw [if_pos ⟨hdid.symm, hne⟩, if_pos hmem]
    ring
  · simp only [submitScore]
  · exact List.mem_map.mpr
      ⟨d, List.mem_filter.mpr ⟨List.get?_mem hd, by simpa using hmem⟩, rfl⟩

theorem C10_witness :
    ∃ d2 e2,
      (submitScore exDG).game.players.get? exDG.game.currentPlayerIndex = some d2 ∧
      d2.score = playerA.score + 2 * basePointsOf exDG.game.currentPrompt +
        (if SPEED_BONUS_THRESHOLD ≤ exDG.game.timer then 1 else 0) ∧
      (submitScore exDG).game.history = exDG.game.history ++ [e2] ∧
      playerA.name ∈ e2.winners :=
  C10_drawer_counted_as_guesser exDG playerA (by decide) (by decide)

end SketchIt
